import Mathlib

/-!
Verification of the Wall2CAD mask-vectorization pipeline.

Shallow embedding of the core modules of the repository:
  * `Wall2CAD/core/dxf_exporter.py`  (coordinate transform, layer classifier,
    document save),
  * `Wall2CAD/core/mask_processor.py` (mask post-processing, contour
    extraction, contour simplification, smoothing kernel),
  * `Wall2CAD/core/sam_worker.py`    (worker thread: task requests and the
    event sequences of a task run).

Python floats are modelled as rationals (`ℚ`); numpy grids as
`List (List Bool)`; calls into external libraries (OpenCV, ezdxf, the SAM
model, the filesystem) are modelled as explicit function parameters or
booleans, so every theorem states which library behaviour it assumes.
-/

namespace Wall2CAD

/-! ## DXF exporter (`dxf_exporter.py`) -/

/-- A 2-D point in the drawing plane. -/
abbrev QPt := ℚ × ℚ

/-- Embedding of `DXFExporter._convert_contour_points`
(`dxf_exporter.py:108-129`).  The Python code loops over the contour,
computes `x = point[0] * scale_factor`, `y = point[1] * scale_factor`,
flips `y` to `image_height * scale_factor - y` when an image height is
supplied, and appends the pair to the output list.  Contour points are
modelled as pairs, which makes the `len(point) >= 2` guard always true. -/
def convert_contour_points (contour : List QPt) (scale_factor : ℚ)
    (image_height : Option ℚ) : List QPt :=
  contour.foldl (fun pts point =>
    let x := point.1 * scale_factor
    let y := point.2 * scale_factor
    let y := match image_height with
      | some h => h * scale_factor - y
      | none => y
    pts ++ [(x, y)]) []

/-- Embedding of `DXFExporter._get_layer_name` (`dxf_exporter.py:131-140`). -/
def get_layer_name (area : ℚ) (pfx : String) : String :=
  if area < 1000 then pfx ++ "_SMALL"
  else if area < 10000 then pfx ++ "_MEDIUM"
  else if area < 100000 then pfx ++ "_LARGE"
  else pfx ++ "_XLARGE"

/-- Embedding of `DXFExporter._get_layer_color` (`dxf_exporter.py:154-163`). -/
def get_layer_color (area : ℚ) : ℤ :=
  if area < 1000 then 5        -- Blue
  else if area < 10000 then 3  -- Green
  else if area < 100000 then 2 -- Yellow
  else 1                       -- Red

/-- Strip trailing `/` characters, as Python's `str.rstrip('/')`. -/
def rstripSlash (l : List Char) : List Char :=
  (l.reverse.dropWhile (fun c => c = '/')).reverse

/-- Embedding of `os.path.dirname` (posixpath): everything up to and
including the last `/` is kept, then trailing slashes are stripped unless
the head consists of slashes only; a path without `/` has dirname `""`. -/
def dirname (p : String) : String :=
  let cs := p.data
  let bnLen := (cs.reverse.takeWhile (fun c => c ≠ '/')).length
  let head := cs.take (cs.length - bnLen)
  let head :=
    if !head.isEmpty && head.any (fun c => c ≠ '/') then rstripSlash head
    else head
  String.mk head

/-- Embedding of `DXFExporter.save` (`dxf_exporter.py:259-285`).  The body
runs under a `try`: with no document it returns `False`; otherwise it calls
`os.makedirs(os.path.dirname(file_path), exist_ok=True)` — which raises
`FileNotFoundError` on the empty string, caught by the handler, returning
`False` before any write — and then `doc.saveas(file_path)`, whose success
is modelled by the `write_ok` flag (it abstracts the filesystem).  The
result is `(returned value, file was written)`. -/
def save (doc_exists : Bool) (file_path : String) (write_ok : Bool) :
    Bool × Bool :=
  if !doc_exists then (false, false)
  else if dirname file_path = "" then (false, false)
  else if write_ok then (true, true)
  else (false, false)

/-! ## Mask post-processor (`mask_processor.py`)

A mask grid is a list of rows of booleans: the Python code normalizes every
incoming dtype to `uint8` 0/255 and returns `processed > 0`, so the boolean
view is the invariant content of a mask throughout the pipeline. -/

/-- A binary mask grid (row-major, as a numpy 2-D array). -/
abbrev Grid := List (List Bool)

/-- The pixel at row `i`, column `j` (out of range reads as background). -/
def cell (g : Grid) (i j : ℕ) : Bool := (g.getD i []).getD j false

/-- Foreground pixel count, `np.sum(mask > 0)`. -/
def fgCount (g : Grid) : ℕ := (g.map (fun row => row.countP (fun b => b))).sum

/-- All `(row, col)` coordinates of the grid, row-major (`np.argwhere` order). -/
def allCoords (g : Grid) : List (ℕ × ℕ) :=
  (List.range g.length).flatMap
    (fun i => (List.range (g.getD i []).length).map (fun j => (i, j)))

/-- `|a - b|` on naturals. -/
def natDist (a b : ℕ) : ℕ := if a ≤ b then b - a else a - b

/-- 8-neighbourhood adjacency of two coordinates (the default connectivity of
`cv2.connectedComponents`); a coordinate is adjacent to itself. -/
def adj8 (p q : ℕ × ℕ) : Bool :=
  decide (natDist p.1 q.1 ≤ 1 ∧ natDist p.2 q.2 ≤ 1)

/-- One step of connected-component growth: every foreground pixel adjacent
to the current set. -/
def growComponent (g : Grid) (s : List (ℕ × ℕ)) : List (ℕ × ℕ) :=
  (allCoords g).filter (fun c => cell g c.1 c.2 && s.any (fun b => adj8 b c))

/-- The 8-connected component of `p` in `g`, computed by saturating
`growComponent` (one iteration per pixel of the grid is enough to reach the
fixpoint). -/
def component (g : Grid) (p : ℕ × ℕ) : List (ℕ × ℕ) :=
  (growComponent g)^[(g.map List.length).sum] [p]

/-- Number of pixels of the 8-connected component of `p`. -/
def componentSize (g : Grid) (p : ℕ × ℕ) : ℕ := (component g p).length

/-- Embedding of `MaskProcessor._remove_noise` (`mask_processor.py:105-118`):
label the connected components (`cv2.connectedComponents`) and keep exactly
the pixels whose component has at least `min_area` pixels. -/
def remove_noise (g : Grid) (min_area : ℕ) : Grid :=
  (List.range g.length).map (fun i =>
    (List.range (g.getD i []).length).map (fun j =>
      cell g i j && decide (min_area ≤ componentSize g (i, j))))

/-- Embedding of `MaskProcessor._get_bbox` (`mask_processor.py:148-157`):
`np.argwhere` yields `(row, col)` pairs; an empty mask gives `[0,0,0,0]`,
otherwise `[x_min, y_min, x_max - x_min, y_max - y_min]`. -/
def get_bbox (g : Grid) : List ℤ :=
  match (allCoords g).filter (fun c => cell g c.1 c.2) with
  | [] => [0, 0, 0, 0]
  | c :: cs =>
    let y_min := cs.foldl (fun a p => min a p.1) c.1
    let y_max := cs.foldl (fun a p => max a p.1) c.1
    let x_min := cs.foldl (fun a p => min a p.2) c.2
    let x_max := cs.foldl (fun a p => max a p.2) c.2
    [(x_min : ℤ), (y_min : ℤ), (x_max : ℤ) - (x_min : ℤ), (y_max : ℤ) - (y_min : ℤ)]

/-- Embedding of `MaskProcessor._process_single_mask`
(`mask_processor.py:71-103`).  The dtype normalization is absorbed by the
boolean grid; the foreground count is checked against `min_area` before any
cleaning; then noise removal, hole filling and smoothing apply in that
order, the latter two as abstract grid transformers (`cv2.morphologyEx`,
`cv2.GaussianBlur` + threshold). -/
def process_single_mask (fill : Grid → Grid) (smooth : ℚ → Grid → Grid)
    (smoothing noise_removal fill_holes : Bool) (min_area : ℕ)
    (smoothing_strength : ℚ) (mask : Grid) : Option Grid :=
  if fgCount mask < min_area then none
  else
    let processed := mask
    let processed := if noise_removal then remove_noise processed min_area else processed
    let processed := if fill_holes then fill processed else processed
    let processed := if smoothing then smooth smoothing_strength processed else processed
    some processed

/-- A SAM mask record (the dict handed from `generate_masks`): the
`segmentation` grid plus the metadata the pipeline reads or rewrites. -/
structure MaskData where
  seg : Grid
  area : ℕ := 0
  bbox : List ℤ := [0, 0, 0, 0]
  predicted_iou : ℚ := 0
deriving Repr, DecidableEq

/-- Embedding of `MaskProcessor.process_masks` (`mask_processor.py:20-69`):
each mask is post-processed; a `None` result (area below `min_area`) emits
nothing; otherwise the record is copied with the new grid, recomputed
`area` (`np.sum`) and recomputed `bbox`. -/
def process_masks (fill : Grid → Grid) (smooth : ℚ → Grid → Grid)
    (masks : List MaskData) (smoothing noise_removal fill_holes : Bool)
    (min_area : ℕ) (smoothing_strength : ℚ) : List MaskData :=
  masks.filterMap (fun mask_data =>
    match process_single_mask fill smooth smoothing noise_removal fill_holes
        min_area smoothing_strength mask_data.seg with
    | none => none
    | some processed_mask =>
      some { mask_data with
              seg := processed_mask
              area := fgCount processed_mask
              bbox := get_bbox processed_mask })

/-! ## Contour extraction and simplification (`mask_processor.py`) -/

/-- A contour point: OpenCV contours carry integer pixel coordinates. -/
abbrev Pt := ℤ × ℤ

/-- A contour record (the dict built by `extract_contours`, extended in
place by `simplify_contours`). -/
structure ContourRecord where
  mask_id : ℕ
  contour : List Pt
  area : ℚ
  perimeter : ℚ
  bbox : List ℤ
  simplified : Bool := false
  epsilon : ℚ := 0
  points_original : ℕ := 0
  points_simplified : ℕ := 0
deriving Repr, DecidableEq

/-- Python's `max(xs, key=k)`: the first element of maximal key (a later
element replaces the running best only when strictly greater). -/
def pickMax (key : List Pt → ℚ) (c : List Pt) (cs : List (List Pt)) : List Pt :=
  cs.foldl (fun best x => if key best < key x then x else best) c

/-- Embedding of `MaskProcessor.extract_contours` (`mask_processor.py:159-209`).
`cv2.findContours` (RETR_EXTERNAL, CHAIN_APPROX_SIMPLE), `cv2.contourArea`,
`cv2.arcLength` and `cv2.boundingRect` are abstract library parameters.  For
each mask with a non-empty contour list the largest-area contour is selected
(`max(contours, key=cv2.contourArea)`) and emitted as a record — with no
filtering on its point count. -/
def extract_contours (findContours : Grid → List (List Pt))
    (contourArea arcLength : List Pt → ℚ) (boundingRect : List Pt → List ℤ)
    (masks : List MaskData) : List ContourRecord :=
  masks.enum.filterMap (fun p =>
    match findContours p.2.seg with
    | [] => none
    | c :: cs =>
      let main_contour := pickMax contourArea c cs
      some { mask_id := p.1
             contour := main_contour
             area := contourArea main_contour
             perimeter := arcLength main_contour
             bbox := boundingRect main_contour })

/-- The per-record body of `simplify_contours` (`mask_processor.py:225-248`):
`epsilon = epsilon_factor * cv2.arcLength(contour, True)`, then
`cv2.approxPolyDP`; a raised exception (modelled by `none`) falls to the
`except` branch, which keeps the original record. -/
def simplify_step (approxPolyDP : List Pt → ℚ → Option (List Pt))
    (arcLength : List Pt → ℚ) (epsilon_factor : ℚ)
    (data : ContourRecord) : ContourRecord :=
  let epsilon := epsilon_factor * arcLength data.contour
  match approxPolyDP data.contour epsilon with
  | some simplified_contour =>
    { data with
       contour := simplified_contour
       simplified := true
       epsilon := epsilon
       points_original := data.contour.length
       points_simplified := simplified_contour.length }
  | none => data

/-- Embedding of `MaskProcessor.simplify_contours`
(`mask_processor.py:211-250`): one output record per input record. -/
def simplify_contours (approxPolyDP : List Pt → ℚ → Option (List Pt))
    (arcLength : List Pt → ℚ) (contour_data : List ContourRecord)
    (epsilon_factor : ℚ) : List ContourRecord :=
  contour_data.map (simplify_step approxPolyDP arcLength epsilon_factor)

/-! ## Smoothing kernel (`MaskProcessor._smooth_mask`) -/

/-- Python `int()` on a float: truncation toward zero. -/
def pyInt (q : ℚ) : ℤ := if 0 ≤ q then ⌊q⌋ else ⌈q⌉

/-- Python 3 `round()` to an integer: round half to even. -/
def pyRound (q : ℚ) : ℤ :=
  let f := ⌊q⌋
  let r := q - f
  if r < 1 / 2 then f
  else if 1 / 2 < r then f + 1
  else if f % 2 = 0 then f else f + 1

/-- Force a kernel dimension odd by adding one to an even value. -/
def forceOdd (k : ℤ) : ℤ := if k % 2 = 0 then k + 1 else k

/-- Embedding of the kernel-size computation of `MaskProcessor._smooth_mask`
(`mask_processor.py:134-136`): `kernel_size = max(3, int(strength * 5))`,
incremented by one if even. -/
def kernel_size (strength : ℚ) : ℤ := forceOdd (max 3 (pyInt (strength * 5)))

/-- The kernel size as the spec's sentence words it: `max(3, round(strength*5))`,
forced odd — with Python rounding instead of the code's `int()` truncation.
Stated only to be compared against `kernel_size`. -/
def claimed_kernel_size (strength : ℚ) : ℤ :=
  forceOdd (max 3 (pyRound (strength * 5)))

/-! ## Worker thread (`sam_worker.py`)

The Qt signals a task run emits are modelled as an ordered list of events;
the message payloads (human-readable strings) and the mask payload are
claim-irrelevant and elided.  The asynchronously writable `should_stop`
flag is modelled as the sequence of values the run observes at its
successive poll points. -/

/-- A worker event: `started` (`model_load_started` / `segmentation_started`),
`progress p` (`*_progress`), `finished ok` (`*_finished`). -/
inductive Event where
  | started : Event
  | progress : ℕ → Event
  | finished : Bool → Event
deriving Repr, DecidableEq

/-- Embedding of `SAMWorkerThread._run_model_loading`
(`sam_worker.py:110-170`): the exact emission and poll order of the body.
`stop k` is the value of `should_stop` at the `k`-th `if self.should_stop:
return` poll; `file_ok` is `os.path.exists(model_path)`; `deps_ok` is
`_check_dependencies()`; `load_ok` is the result of `load_model`. -/
def run_model_loading (stop : ℕ → Bool) (file_ok deps_ok load_ok : Bool) :
    List Event :=
  Event.started ::
  (if stop 0 then []
   else
    Event.progress 10 ::
    (if !file_ok then [Event.finished false]
     else if stop 1 then []
     else
      Event.progress 20 ::
      (if stop 2 then []
       else
        Event.progress 30 ::
        (if !deps_ok then [Event.finished false]
         else if stop 3 then []
         else
          Event.progress 40 ::
          (if stop 4 then []
           else if load_ok then
            [Event.progress 90, Event.progress 100, Event.finished true]
           else [Event.finished false])))))

/-- Embedding of `SAMWorkerThread._run_segmentation`
(`sam_worker.py:172-226`): `loaded` is `sam_processor.is_loaded()`;
`num_masks` the length of the list `generate_masks` returns (the `if masks:`
truthiness check is emptiness). -/
def run_segmentation_task (stop : ℕ → Bool) (loaded : Bool) (num_masks : ℕ) :
    List Event :=
  Event.started ::
  (if !loaded then [Event.finished false]
   else if stop 0 then []
   else
    Event.progress 10 ::
    (if stop 1 then []
     else
      Event.progress 30 ::
      (if stop 2 then []
       else
        Event.progress 90 ::
        (if num_masks ≠ 0 then [Event.progress 100, Event.finished true]
         else [Event.finished false]))))

/-- Is the event a progress report? -/
def isProgress : Event → Bool
  | Event.progress _ => true
  | _ => false

/-- Is the event terminal (`*_finished`)? -/
def isTerminal : Event → Bool
  | Event.finished _ => true
  | _ => false

/-- Zero or more progress events followed by exactly one terminal event. -/
def progressThenTerminal : List Event → Bool
  | [] => false
  | [e] => isTerminal e
  | e :: rest => isProgress e && progressThenTerminal rest

/-- The event-sequence shape the spec demands of a task run: a start event,
then zero or more progress events, then exactly one terminal event. -/
def wellFormedRun : List Event → Bool
  | Event.started :: rest => progressThenTerminal rest
  | _ => false

/-- The task kinds of `SAMWorkerThread.current_task`. -/
inductive TaskKind where
  | load_model : TaskKind
  | segmentation : TaskKind
deriving Repr, DecidableEq

/-- The mutex-guarded request fields of `SAMWorkerThread`
(`sam_worker.py:30-45`) plus `running` for `QThread.isRunning()`. -/
structure WorkerState where
  current_task : Option TaskKind
  model_path : String
  model_type : String
  input_image : Option (List ℕ)
  sam_params : List (String × ℚ)
  should_stop : Bool
  running : Bool
deriving Repr, DecidableEq

/-- Embedding of `SAMWorkerThread.load_sam_model` (`sam_worker.py:47-65`):
under the mutex, unconditionally overwrite the queued task and parameters,
clear the stop flag, and call `start()` only when the thread is not already
running.  The returned boolean records whether `start()` was called (the
Python method itself returns `None`: there is no rejection value). -/
def load_sam_model (s : WorkerState) (model_path model_type : String) :
    WorkerState × Bool :=
  let s' := { s with
               current_task := some TaskKind.load_model
               model_path := model_path
               model_type := model_type
               should_stop := false }
  if s'.running then (s', false) else ({ s' with running := true }, true)

/-- Embedding of `SAMWorkerThread.run_segmentation` (`sam_worker.py:67-85`):
same shape as `load_sam_model`, overwriting the image and parameters. -/
def run_segmentation (s : WorkerState) (image : List ℕ)
    (params : List (String × ℚ)) : WorkerState × Bool :=
  let s' := { s with
               current_task := some TaskKind.segmentation
               input_image := some image
               sam_params := params
               should_stop := false }
  if s'.running then (s', false) else ({ s' with running := true }, true)

/-! ## Theorems -/

/-- A loop that appends one transformed element per iteration is a `map`. -/
theorem foldl_snoc_eq_append_map {α β : Type} (f : α → β) (l : List α)
    (acc : List β) :
    l.foldl (fun out x => out ++ [f x]) acc = acc ++ l.map f := by
  induction l generalizing acc with
  | nil => simp
  | cons x xs ih => simp [List.foldl, ih]

/-- C1: the point conversion maps every `(px, py)` to
`(px * scale, image_height * scale - py * scale)` when an image height is
supplied, to `(px * scale, py * scale)` when not; and with `scale = 2`,
`image_height = 100` the pixel point `(10, 20)` maps to `(20, 160)`. -/
theorem c1_coordinate_transform (pts : List QPt) (scale h : ℚ) :
    convert_contour_points pts scale (some h)
      = pts.map (fun p => (p.1 * scale, h * scale - p.2 * scale))
    ∧ convert_contour_points pts scale none
      = pts.map (fun p => (p.1 * scale, p.2 * scale))
    ∧ convert_contour_points [((10 : ℚ), (20 : ℚ))] 2 (some 100)
      = [((20 : ℚ), (160 : ℚ))] := by
  refine ⟨?_, ?_, ?_⟩
  · simpa using foldl_snoc_eq_append_map
      (fun p : QPt => (p.1 * scale, h * scale - p.2 * scale)) pts []
  · simpa using foldl_snoc_eq_append_map
      (fun p : QPt => (p.1 * scale, p.2 * scale)) pts []
  · simp [convert_contour_points]
    norm_num

/-- C8: the default layer classifier is a pure function of area with the
stated buckets: `< 1000 → "SMALL"`/blue(5), `< 10000 → "MEDIUM"`/green(3),
`< 100000 → "LARGE"`/yellow(2), otherwise `"XLARGE"`/red(1). -/
theorem c8_layer_classifier (area : ℚ) (pfx : String) :
    (area < 1000 →
      get_layer_name area pfx = pfx ++ "_SMALL" ∧ get_layer_color area = 5)
    ∧ (1000 ≤ area → area < 10000 →
      get_layer_name area pfx = pfx ++ "_MEDIUM" ∧ get_layer_color area = 3)
    ∧ (10000 ≤ area → area < 100000 →
      get_layer_name area pfx = pfx ++ "_LARGE" ∧ get_layer_color area = 2)
    ∧ (100000 ≤ area →
      get_layer_name area pfx = pfx ++ "_XLARGE" ∧ get_layer_color area = 1) := by
  refine ⟨fun h => ?_, fun h1 h2 => ?_, fun h1 h2 => ?_, fun h1 => ?_⟩
  · simp [get_layer_name, get_layer_color, h]
  · have hn : ¬ area < 1000 := not_lt.mpr h1
    simp [get_layer_name, get_layer_color, hn, h2]
  · have hn : ¬ area < 1000 := not_lt.mpr (by linarith)
    have hn2 : ¬ area < 10000 := not_lt.mpr h1
    simp [get_layer_name, get_layer_color, hn, hn2, h2]
  · have hn : ¬ area < 1000 := not_lt.mpr (by linarith)
    have hn2 : ¬ area < 10000 := not_lt.mpr (by linarith)
    have hn3 : ¬ area < 100000 := not_lt.mpr h1
    simp [get_layer_name, get_layer_color, hn, hn2, hn3]

/-- Witness for C8 at the spec's four sample areas 500, 5000, 50000, 500000. -/
theorem c8_layer_classifier_witness :
    (get_layer_name 500 "WALL2CAD" = "WALL2CAD_SMALL" ∧ get_layer_color 500 = 5)
    ∧ (get_layer_name 5000 "WALL2CAD" = "WALL2CAD_MEDIUM" ∧ get_layer_color 5000 = 3)
    ∧ (get_layer_name 50000 "WALL2CAD" = "WALL2CAD_LARGE" ∧ get_layer_color 50000 = 2)
    ∧ (get_layer_name 500000 "WALL2CAD" = "WALL2CAD_XLARGE" ∧ get_layer_color 500000 = 1) :=
  ⟨(c8_layer_classifier 500 "WALL2CAD").1 (by norm_num),
   (c8_layer_classifier 5000 "WALL2CAD").2.1 (by norm_num) (by norm_num),
   (c8_layer_classifier 50000 "WALL2CAD").2.2.1 (by norm_num) (by norm_num),
   (c8_layer_classifier 500000 "WALL2CAD").2.2.2 (by norm_num)⟩

/-- C7 fails as stated: at `strength = 1.1` the code's kernel size
(`int()` truncation: `int(5.5) = 5`, odd, so 5) differs from the claimed
`max(3, round(strength*5))`-forced-odd (Python `round(5.5) = 6`, even, so
7). -/
theorem c7_kernel_counterexample :
    (0 : ℚ) < 11 / 10
    ∧ kernel_size (11 / 10) = 5
    ∧ claimed_kernel_size (11 / 10) = 7
    ∧ kernel_size (11 / 10) ≠ claimed_kernel_size (11 / 10) := by
  have hfloor : ⌊(11 / 10 : ℚ) * 5⌋ = 5 := by
    rw [show (11 / 10 : ℚ) * 5 = 11 / 2 by norm_num]
    rw [Int.floor_eq_iff]
    norm_num
  have h1 : kernel_size (11 / 10) = 5 := by
    rw [kernel_size, pyInt, if_pos (by norm_num), hfloor]
    norm_num [forceOdd]
  have h2 : claimed_kernel_size (11 / 10) = 7 := by
    have hround : pyRound ((11 / 10 : ℚ) * 5) = 6 := by
      rw [pyRound]
      rw [show (11 / 10 : ℚ) * 5 = 11 / 2 by norm_num]
      rw [show ⌊(11 / 2 : ℚ)⌋ = 5 by
        rw [Int.floor_eq_iff]; norm_num]
      norm_num
    rw [claimed_kernel_size, hround]
    norm_num [forceOdd]
  exact ⟨by norm_num, h1, h2, by rw [h1, h2]; norm_num⟩

/-- `forceOdd` is monotone. -/
theorem forceOdd_mono {a b : ℤ} (h : a ≤ b) : forceOdd a ≤ forceOdd b := by
  unfold forceOdd
  split_ifs <;> omega

/-- C7 as amended: for positive strength the kernel size is
`max(3, ⌊strength*5⌋)` forced odd (truncation, not rounding); it is odd, at
least 3, and monotone in the strength. -/
theorem c7_kernel_size_amended (s : ℚ) (hs : 0 < s) :
    kernel_size s = forceOdd (max 3 ⌊s * 5⌋)
    ∧ kernel_size s % 2 = 1
    ∧ 3 ≤ kernel_size s
    ∧ ∀ t, s ≤ t → kernel_size s ≤ kernel_size t := by
  have hint : ∀ q : ℚ, 0 ≤ q → pyInt q = ⌊q⌋ := by
    intro q hq; simp [pyInt, hq]
  have hs5 : (0 : ℚ) ≤ s * 5 := by positivity
  refine ⟨?_, ?_, ?_, ?_⟩
  · simp [kernel_size, hint _ hs5]
  · unfold kernel_size forceOdd
    split_ifs with h
    · omega
    · omega
  · unfold kernel_size forceOdd
    have : (3 : ℤ) ≤ max 3 (pyInt (s * 5)) := le_max_left _ _
    split_ifs <;> omega
  · intro t hst
    have ht5 : (0 : ℚ) ≤ t * 5 := by nlinarith
    unfold kernel_size
    apply forceOdd_mono
    have : ⌊s * 5⌋ ≤ ⌊t * 5⌋ := Int.floor_le_floor (by nlinarith)
    rw [hint _ hs5, hint _ ht5]
    omega

/-- Witness for C7's amended theorem at `strength = 1` (and `t = 2` for the
monotonicity conjunct). -/
theorem c7_kernel_size_witness :
    kernel_size 1 = forceOdd (max 3 ⌊(1 : ℚ) * 5⌋)
    ∧ kernel_size 1 % 2 = 1
    ∧ 3 ≤ kernel_size 1
    ∧ kernel_size 1 ≤ kernel_size 2 :=
  ⟨(c7_kernel_size_amended 1 (by norm_num)).1,
   (c7_kernel_size_amended 1 (by norm_num)).2.1,
   (c7_kernel_size_amended 1 (by norm_num)).2.2.1,
   (c7_kernel_size_amended 1 (by norm_num)).2.2.2 2 (by norm_num)⟩

/-- C10: with a valid document, `save` on a path whose dirname is empty (a
bare filename) returns `False` and writes nothing — `os.makedirs("")`
raises and the handler returns `False` — and a successful `save` implies
the path had a directory component. -/
theorem c10_save_requires_directory (file_path : String) (write_ok : Bool) :
    (dirname file_path = "" → save true file_path write_ok = (false, false))
    ∧ ((save true file_path write_ok).1 = true → dirname file_path ≠ "") := by
  constructor
  · intro h
    simp [save, h]
  · intro h hdir
    simp [save, hdir] at h

/-- Witness for C10 at the bare filename `"out.dxf"`. -/
theorem c10_save_witness :
    dirname "out.dxf" = "" ∧ save true "out.dxf" true = (false, false) :=
  ⟨by decide, (c10_save_requires_directory "out.dxf" true).1 (by decide)⟩

/-- C5: for every batch, every option setting and every `min_area`, a mask
whose foreground pixel count (before any cleaning) is below `min_area` is
dropped — per-mask processing returns nothing for it, and appending such a
mask to a batch leaves the output unchanged — and the output count never
exceeds the input count. -/
theorem c5_min_area_precheck (fill : Grid → Grid) (smooth : ℚ → Grid → Grid)
    (masks : List MaskData) (smoothing noise_removal fill_holes : Bool)
    (min_area : ℕ) (strength : ℚ) :
    (∀ md : MaskData, fgCount md.seg < min_area →
      process_single_mask fill smooth smoothing noise_removal fill_holes
        min_area strength md.seg = none)
    ∧ (∀ md : MaskData, fgCount md.seg < min_area →
      process_masks fill smooth (masks ++ [md]) smoothing noise_removal
          fill_holes min_area strength
        = process_masks fill smooth masks smoothing noise_removal fill_holes
            min_area strength)
    ∧ (process_masks fill smooth masks smoothing noise_removal fill_holes
        min_area strength).length ≤ masks.length := by
  have hnone : ∀ md : MaskData, fgCount md.seg < min_area →
      process_single_mask fill smooth smoothing noise_removal fill_holes
        min_area strength md.seg = none := by
    intro md h
    simp [process_single_mask, h]
  refine ⟨hnone, fun md h => ?_, ?_⟩
  · simp [process_masks, List.filterMap_append, hnone md h]
  · simpa [process_masks] using
      List.length_filterMap_le _ masks

/-- Witness for C5 with a below-threshold mask (an all-background 1×1 grid
against `min_area = 1`) appended to the empty batch. -/
theorem c5_min_area_witness :
    process_single_mask id (fun _ g => g) true true false 1 1
        (MaskData.mk [[false]] 0 [0, 0, 0, 0] 0).seg = none
    ∧ process_masks id (fun _ g => g)
        ([] ++ [MaskData.mk [[false]] 0 [0, 0, 0, 0] 0]) true true false 1 1
      = process_masks id (fun _ g => g) [] true true false 1 1
    ∧ (process_masks id (fun _ g => g) [] true true false 1 1).length
        ≤ ([] : List MaskData).length :=
  ⟨(c5_min_area_precheck id (fun _ g => g) [] true true false 1 1).1
      (MaskData.mk [[false]] 0 [0, 0, 0, 0] 0) (by decide),
   (c5_min_area_precheck id (fun _ g => g) [] true true false 1 1).2.1
      (MaskData.mk [[false]] 0 [0, 0, 0, 0] 0) (by decide),
   (c5_min_area_precheck id (fun _ g => g) [] true true false 1 1).2.2⟩

/-- The C9 input mask: two isolated foreground pixels, total area 2, each
8-connected component of size 1. -/
def c9mask : MaskData :=
  { seg := [[true, false, true]], area := 2, bbox := [0, 0, 2, 0] }

/-- C9: the mask `[[1,0,1]]` with `min_area = 2` passes the pre-check
(total foreground 2 ≥ 2) although each of its components has 1 < 2 pixels;
with noise removal enabled the post-processor still emits a record — with
an entirely empty grid, recomputed area 0 and bbox `[0,0,0,0]`. -/
theorem c9_precheck_passes_but_empty_output :
    2 ≤ fgCount c9mask.seg
    ∧ componentSize c9mask.seg (0, 0) < 2
    ∧ componentSize c9mask.seg (0, 2) < 2
    ∧ process_masks id (fun _ g => g) [c9mask] false true false 2 1
      = [{ seg := [[false, false, false]], area := 0, bbox := [0, 0, 0, 0],
           predicted_iou := 0 }]
    ∧ fgCount [[false, false, false]] = 0 := by
  exact ⟨by decide, by decide, by decide, by decide, by decide⟩

/-- `pickMax` returns an element of the non-empty list it scans. -/
theorem pickMax_mem (key : List Pt → ℚ) (cs : List (List Pt)) :
    ∀ c : List Pt, pickMax key c cs ∈ c :: cs := by
  induction cs with
  | nil => intro c; simp [pickMax]
  | cons x xs ih =>
    intro c
    have hunfold : pickMax key c (x :: xs)
        = pickMax key (if key c < key x then x else c) xs := rfl
    rw [hunfold]
    rcases List.mem_cons.mp (ih (if key c < key x then x else c)) with h | h
    · rw [h]
      split
      · exact List.mem_cons_of_mem _ (List.mem_cons_self _ _)
      · exact List.mem_cons_self _ _
    · exact List.mem_cons_of_mem _ (List.mem_cons_of_mem _ h)

/-- `pickMax` returns an element of maximal key. -/
theorem pickMax_le (key : List Pt → ℚ) (cs : List (List Pt)) :
    ∀ c : List Pt, ∀ x ∈ c :: cs, key x ≤ key (pickMax key c cs) := by
  induction cs with
  | nil =>
    intro c x hx
    rcases List.mem_cons.mp hx with h | h
    · rw [h]; exact le_refl _
    · simp at h
  | cons y ys ih =>
    intro c x hx
    have hb : key c ≤ key (if key c < key y then y else c)
        ∧ key y ≤ key (if key c < key y then y else c) := by
      by_cases h : key c < key y
      · simp [h, le_of_lt h]
      · simp [h, le_of_not_lt h]
    have hrec : key (if key c < key y then y else c)
        ≤ key (pickMax key (if key c < key y then y else c) ys) :=
      ih _ _ (List.mem_cons_self _ _)
    have hgoal : pickMax key c (y :: ys)
        = pickMax key (if key c < key y then y else c) ys := rfl
    rw [hgoal]
    rcases List.mem_cons.mp hx with h | h
    · rw [h]; exact le_trans hb.1 hrec
    · rcases List.mem_cons.mp h with h2 | h2
      · rw [h2]; exact le_trans hb.2 hrec
      · exact ih _ _ (List.mem_cons_of_mem _ h2)

/-- An element of `l.enum` projects to an element of `l`. -/
theorem snd_mem_of_mem_enum {α : Type} {l : List α} {p : ℕ × α}
    (h : p ∈ l.enum) : p.2 ∈ l := by
  have h2 := List.mem_enum_iff_getElem?.mp h
  rw [List.getElem?_eq_some] at h2
  obtain ⟨hlt, hg⟩ := h2
  exact hg ▸ List.getElem_mem hlt

/-- C4 fails as stated: a concrete run of `extract_contours` emits a record
whose contour has a single point.  `c4findContours` is the behaviour of
`cv2.findContours` (RETR_EXTERNAL, CHAIN_APPROX_SIMPLE) on a mask whose
foreground is the single pixel `(0,0)`: one contour of one point. -/
theorem c4_counterexample :
    (extract_contours (fun _ => [[((0 : ℤ), (0 : ℤ))]]) (fun _ => 0)
        (fun _ => 0) (fun _ => [0, 0, 1, 1])
        [{ seg := [[true]], area := 1 }]).map (fun r => r.contour.length)
      = [1]
    ∧ (1 : ℕ) < 3 := by
  exact ⟨by decide, by decide⟩

/-- C4 as amended: `extract_contours` applies no minimum-point filter — for
every choice of the OpenCV functions, every emitted record carries, for some
input mask, exactly one of the library's contours for that mask, the one of
maximal `contourArea`, unchanged, whatever its point count.  (The `< 3`
filter lives downstream, in `add_contours_as_polylines`.) -/
theorem c4_extract_no_point_filter
    (findContours : Grid → List (List Pt)) (contourArea arcLength : List Pt → ℚ)
    (boundingRect : List Pt → List ℤ) (masks : List MaskData)
    (r : ContourRecord)
    (hr : r ∈ extract_contours findContours contourArea arcLength boundingRect masks) :
    ∃ md ∈ masks, r.contour ∈ findContours md.seg
      ∧ ∀ c ∈ findContours md.seg, contourArea c ≤ contourArea r.contour := by
  rw [extract_contours] at hr
  obtain ⟨p, hp, heq⟩ := List.mem_filterMap.mp hr
  refine ⟨p.2, snd_mem_of_mem_enum hp, ?_⟩
  cases hc : findContours p.2.seg with
  | nil => rw [hc] at heq; simp at heq
  | cons c cs =>
    rw [hc] at heq
    cases heq
    refine ⟨?_, ?_⟩
    · exact pickMax_mem contourArea cs c
    · intro x hx
      exact pickMax_le contourArea cs c x hx

/-- The record the C4 counterexample's run emits. -/
def c4record : ContourRecord :=
  { mask_id := 0, contour := [((0 : ℤ), (0 : ℤ))], area := 0, perimeter := 0,
    bbox := [0, 0, 1, 1] }

/-- Witness for C4's amended theorem at the single-pixel instance. -/
theorem c4_extract_witness :
    ∃ md ∈ [({ seg := [[true]], area := 1 } : MaskData)],
      c4record.contour ∈ (fun _ : Grid => [[((0 : ℤ), (0 : ℤ))]]) md.seg
      ∧ ∀ c ∈ (fun _ : Grid => [[((0 : ℤ), (0 : ℤ))]]) md.seg,
          (fun _ : List Pt => (0 : ℚ)) c ≤ (fun _ : List Pt => (0 : ℚ)) c4record.contour :=
  c4_extract_no_point_filter (fun _ => [[((0 : ℤ), (0 : ℤ))]]) (fun _ => 0)
    (fun _ => 0) (fun _ => [0, 0, 1, 1]) [{ seg := [[true]], area := 1 }]
    c4record (by decide)

/-- C6: for any simplifier that never returns more points than it was given
(as `cv2.approxPolyDP`, a Douglas-Peucker reduction, selects a subset of the
input vertices), `simplify_contours` yields exactly one record per input;
on success the recorded epsilon is exactly `epsilon_factor` times the
contour's perimeter (`cv2.arcLength(contour, True)`) and
`points_simplified ≤ points_original`; a record whose simplification raises
is passed through unchanged. -/
theorem c6_simplify_round_trip
    (approxPolyDP : List Pt → ℚ → Option (List Pt))
    (arcLength : List Pt → ℚ) (contour_data : List ContourRecord)
    (epsilon_factor : ℚ)
    (hlib : ∀ c eps out, approxPolyDP c eps = some out → out.length ≤ c.length) :
    (simplify_contours approxPolyDP arcLength contour_data epsilon_factor).length
      = contour_data.length
    ∧ ∀ d : ContourRecord,
        (approxPolyDP d.contour (epsilon_factor * arcLength d.contour) = none →
          simplify_step approxPolyDP arcLength epsilon_factor d = d)
        ∧ ∀ out, approxPolyDP d.contour (epsilon_factor * arcLength d.contour)
              = some out →
            (simplify_step approxPolyDP arcLength epsilon_factor d).epsilon
              = epsilon_factor * arcLength d.contour
            ∧ (simplify_step approxPolyDP arcLength epsilon_factor d).points_original
              = d.contour.length
            ∧ (simplify_step approxPolyDP arcLength epsilon_factor d).points_simplified
              ≤ (simplify_step approxPolyDP arcLength epsilon_factor d).points_original := by
  refine ⟨by simp [simplify_contours], fun d => ⟨fun hnone => ?_, fun out hout => ?_⟩⟩
  · simp [simplify_step, hnone]
  · refine ⟨?_, ?_, ?_⟩ <;> simp [simplify_step, hout]
    exact hlib _ _ _ hout

/-- The contour record used to witness C6. -/
def c6record : ContourRecord :=
  { mask_id := 0, contour := [((0 : ℤ), 0), ((4 : ℤ), 0), ((4 : ℤ), 3)],
    area := 6, perimeter := 12, bbox := [0, 0, 4, 3] }

/-- Witness for C6 with the identity simplifier (which trivially never adds
points), unit arc length and `epsilon_factor = 1/50`. -/
theorem c6_simplify_witness :
    (simplify_contours (fun c _ => some c) (fun _ => 1) [c6record] (1 / 50)).length
      = 1
    ∧ (simplify_step (fun c _ => some c) (fun _ => (1 : ℚ)) (1 / 50) c6record).epsilon
      = (1 / 50 : ℚ) * 1
    ∧ (simplify_step (fun c _ => some c) (fun _ => (1 : ℚ)) (1 / 50) c6record).points_simplified
      ≤ (simplify_step (fun c _ => some c) (fun _ => (1 : ℚ)) (1 / 50) c6record).points_original := by
  have h := c6_simplify_round_trip (fun c _ => some c) (fun _ => 1) [c6record]
    (1 / 50) (fun c eps out he => by injection he with h2; rw [← h2])
  have h2 := (h.2 c6record).2 c6record.contour rfl
  exact ⟨h.1, h2.1, h2.2.2⟩

/-- C2 fails as stated: a model-loading run whose cancellation flag is set
before the first poll point emits only the start event and returns — no
terminal event at all, well-formed-run check false. -/
theorem c2_cancellation_counterexample :
    run_model_loading (fun _ => true) true true true = [Event.started]
    ∧ wellFormedRun [Event.started] = false
    ∧ (run_model_loading (fun _ => true) true true true).countP isTerminal = 0 :=
  ⟨rfl, rfl, rfl⟩

/-- C2 as amended: every task run of the worker emits the start event first;
a run that never observes a cancellation request at a poll point emits a
start event, then zero or more progress events, then exactly one terminal
event; a cancelled run may instead return early with no terminal event. -/
theorem c2_run_event_sequence (stop : ℕ → Bool)
    (file_ok deps_ok load_ok loaded : Bool) (num_masks : ℕ) :
    (run_model_loading stop file_ok deps_ok load_ok).head? = some Event.started
    ∧ (run_segmentation_task stop loaded num_masks).head? = some Event.started
    ∧ ((∀ k, stop k = false) →
        wellFormedRun (run_model_loading stop file_ok deps_ok load_ok) = true
        ∧ wellFormedRun (run_segmentation_task stop loaded num_masks) = true) := by
  refine ⟨rfl, rfl, fun h => ⟨?_, ?_⟩⟩
  · simp only [run_model_loading, h 0, h 1, h 2, h 3, h 4]
    cases file_ok <;> cases deps_ok <;> cases load_ok <;> rfl
  · simp only [run_segmentation_task, h 0, h 1, h 2]
    cases loaded
    · rfl
    · cases num_masks <;> simp [wellFormedRun, progressThenTerminal, isProgress, isTerminal]

/-- Witness for C2's amended theorem: a never-cancelled run. -/
theorem c2_run_event_witness :
    (run_model_loading (fun _ => false) true true true).head? = some Event.started
    ∧ wellFormedRun (run_model_loading (fun _ => false) true true true) = true
    ∧ wellFormedRun (run_segmentation_task (fun _ => false) true 3) = true := by
  have h := c2_run_event_sequence (fun _ => false) true true true true 3
  exact ⟨h.1, (h.2.2 (fun _ => rfl)).1, (h.2.2 (fun _ => rfl)).2⟩

/-- The busy worker state used by the C3 counterexample: the thread is
running a segmentation task queued with `model_path = "m1"`. -/
def c3busy : WorkerState :=
  { current_task := some TaskKind.segmentation
    model_path := "m1"
    model_type := "vit_h"
    input_image := some [1]
    sam_params := [("points_per_side", 32)]
    should_stop := false
    running := true }

/-- C3 fails as stated: with the worker busy, a `load_sam_model` request is
not rejected — it overwrites the queued task kind and parameters. -/
theorem c3_busy_counterexample :
    c3busy.running = true
    ∧ (load_sam_model c3busy "m2" "vit_b").1.current_task ≠ c3busy.current_task
    ∧ (load_sam_model c3busy "m2" "vit_b").1.model_path ≠ c3busy.model_path :=
  ⟨rfl, by decide, by decide⟩

/-- C3 as amended: while the worker thread is running, a new task request
does not start a second concurrent run (`start()` is not called), but it is
not rejected and produces no busy indication: it overwrites the queued task
kind and parameters and clears the stop flag. -/
theorem c3_busy_request_overwrites (s : WorkerState) (path mtype : String)
    (img : List ℕ) (params : List (String × ℚ)) (h : s.running = true) :
    ((load_sam_model s path mtype).2 = false
      ∧ (load_sam_model s path mtype).1.running = true
      ∧ (load_sam_model s path mtype).1.current_task = some TaskKind.load_model
      ∧ (load_sam_model s path mtype).1.model_path = path
      ∧ (load_sam_model s path mtype).1.model_type = mtype
      ∧ (load_sam_model s path mtype).1.should_stop = false)
    ∧ ((run_segmentation s img params).2 = false
      ∧ (run_segmentation s img params).1.running = true
      ∧ (run_segmentation s img params).1.current_task = some TaskKind.segmentation
      ∧ (run_segmentation s img params).1.input_image = some img
      ∧ (run_segmentation s img params).1.sam_params = params
      ∧ (run_segmentation s img params).1.should_stop = false) := by
  constructor
  · simp [load_sam_model, h]
  · simp [run_segmentation, h]

/-- Witness for C3's amended theorem at the busy state `c3busy`. -/
theorem c3_busy_request_witness :
    (load_sam_model c3busy "m2" "vit_b").2 = false
    ∧ (load_sam_model c3busy "m2" "vit_b").1.model_path = "m2"
    ∧ (run_segmentation c3busy [2] []).2 = false
    ∧ (run_segmentation c3busy [2] []).1.input_image = some [2] := by
  have h := c3_busy_request_overwrites c3busy "m2" "vit_b" [2] [] rfl
  exact ⟨h.1.1, h.1.2.2.2.1, h.2.1, h.2.2.2.2.1⟩

end Wall2CAD
